import Mathlib

/-!
Shallow embedding of the gonetem topology manager
(`internal/server/topology.go`, together with the constants of
`internal/options`).

Pure data (names, configuration records, the runtime graph) is translated
directly.  The external collaborators the manager calls — the container
runtime behind `INetemNode`, the `link` netlink wrappers, the `ovs`
wrapper and the identifier generator — are not part of the translated
sources; their outcomes are supplied by an `Env` of oracle functions, and
every external call the manager performs is recorded as an `Event` in a
trace, so that ordering and occurrence properties can be stated.

A Go error value is modelled as its message string.  A Go panic (for
example a method call on a nil interface value, possibly inside an
errgroup goroutine) aborts the whole process; it is modelled as an error
value that every caller propagates unconditionally.
-/

set_option autoImplicit false

namespace Gonetem

/-- Go `error` values, modelled as their message strings. -/
abbrev Err := String

/-- Message produced when a method is invoked on a nil `INetemNode`
interface value (a Go nil-pointer panic). -/
def nilNodePanic : Err := "panic: method call on nil INetemNode"

/-- Message produced when a nil `*NetemBridge` slice entry is dereferenced
(a Go nil-pointer panic). -/
def nilBridgePanic : Err := "panic: nil NetemBridge dereference"

/-- An `INetemNode` as the manager observes it: its identity together with
whether `Start` has succeeded at least once. -/
structure Node where
  name : String
  shortName : String
  started : Bool
deriving Repr, DecidableEq

/-- A Go interface value of static type `INetemNode`: it may be nil
(`none`), which is exactly what `CreateNode` returns on failure. -/
abbrev NodeRef := Option Node

/-- `LinkConfig` of the topology document.  `Loss` is a `float64` in Go
but is only ever compared with `0` and passed through, so it is modelled
as a rational number. -/
structure LinkConfig where
  peer1 : String
  peer2 : String
  loss : Rat
  delay : Int
  jitter : Int
  rate : Int
deriving Repr, DecidableEq

/-- `BridgeConfig` of the topology document. -/
structure BridgeConfig where
  host : String
  interfaces : List String
deriving Repr, DecidableEq

/-- The validated topology document (`NetemTopology`).  Node configs are
consumed opaquely by `CreateNode`, so only the node names are kept; Go map
iteration order is modelled by list order. -/
structure NetemTopology where
  nodes : List String
  links : List LinkConfig
  bridges : List (String × BridgeConfig)
deriving Repr, DecidableEq

/-- `NetemLinkPeer`: a (possibly nil) node reference plus an interface
index. -/
structure NetemLinkPeer where
  node : NodeRef
  ifIndex : Nat
deriving Repr, DecidableEq

/-- `NetemLink`: the runtime form of a point-to-point link. -/
structure NetemLink where
  peer1 : NetemLinkPeer
  peer2 : NetemLinkPeer
  loss : Rat
  delay : Int
  jitter : Int
  rate : Int
deriving Repr, DecidableEq

/-- `NetemBridge`: the runtime form of a host bridge. -/
structure NetemBridge where
  name : String
  hostInterface : String
  peers : List NetemLinkPeer
deriving Repr, DecidableEq

/-- The manager state (`NetemTopologyManager`).  `ovsInstance` records
whether the `*ovs.OvsProjectInstance` pointer is non-nil.  The bridge list
is a list of possibly-nil pointers because `Load` allocates the full slice
up front and an early return leaves nil entries behind.  `idGen` is the
identifier-generator pool; the generator itself is not among the source
files, so its pool is modelled from the spec as the list of short ids it
has issued. -/
structure NetemTopologyManager where
  prjID : String
  idGen : List String
  nodes : List NodeRef
  ovsInstance : Bool
  links : List NetemLink
  bridges : List (Option NetemBridge)
  running : Bool
deriving Repr, DecidableEq

/-- `IsRunning`. -/
def isRunning (t : NetemTopologyManager) : Bool := t.running

/-- `GetAllNodes`. -/
def getAllNodes (t : NetemTopologyManager) : List NodeRef := t.nodes

/-- One external call performed by the manager, as recorded in a trace. -/
inductive Event where
  | ovsStart
  | nodeStart (name : String)
  | nodeStop (name : String)
  | createBridge (name : String)
  | attachToBridge (brName ifName : String)
  | createVeth (ifName peerIfName : String)
  | setIfUp (ifName : String)
  | createNetem (ifName : String) (delay jitter : Int) (loss : Rat)
  | createTbf (ifName : String) (burst rate : Int)
  | addInterface (nodeName ifName : String) (ifIndex : Nat)
  | loadConfig (name : String)
  | nodeClose (name : String)
  | deleteLink (ifName : String)
  | idGenClose
  | ovsClose
deriving Repr, DecidableEq

/-- Outcomes of the external collaborators (container runtime, netlink
wrappers, ovs wrapper, identifier generator, topology validator).  Each
field answers: does this call succeed, and with which value? -/
structure Env where
  /-- Result of `CheckTopology`: the parsed document and the list of
  validation error messages. -/
  checkResult : NetemTopology × List String
  /-- Does `ovs.NewOvsInstance` succeed? -/
  newOvsOk : Bool
  /-- `IdGenerator.GetId`: the short id issued for a name, or `none` on
  failure. -/
  getId : String → Option String
  /-- `CreateNode name shortName`: the (possibly nil) node value returned
  together with whether the call succeeded. -/
  createNode : String → String → NodeRef × Bool
  /-- Does `ovsInstance.Start` succeed? -/
  ovsStartOk : Bool
  /-- Does `node.Start` succeed? -/
  nodeStartOk : String → Bool
  /-- Does `node.Stop` succeed? -/
  nodeStopOk : String → Bool
  /-- Does `node.GetNetns` succeed? -/
  getNetnsOk : String → Bool
  /-- Does `link.CreateVethLink ifName peerIfName` succeed? -/
  createVethOk : String → String → Bool
  /-- Does `link.CreateNetem` on this interface succeed? -/
  createNetemOk : String → Bool
  /-- Does `link.CreateTbf` on this interface succeed? -/
  createTbfOk : String → Bool
  /-- Does `node.AddInterface` of this interface succeed? -/
  addInterfaceOk : String → Bool
  /-- Does `link.CreateBridge` succeed? -/
  createBridgeOk : String → Bool
  /-- Does `link.AttachToBridge brName ifName` succeed? -/
  attachToBridgeOk : String → String → Bool
  /-- Does `link.SetInterfaceState _ UP` succeed? -/
  setIfUpOk : String → Bool
  /-- Result of `node.LoadConfig`: the per-node messages and whether the
  call succeeded. -/
  loadConfigResult : String → List String × Bool

/-- `options.NETEM_ID`, the fixed netem prefix. -/
def NETEM_ID : String := "ntm"

/-- Interface name of a point-to-point link leg, from `setupLink`:
`fmt.Sprintf("%s%s.%d", t.prjID, shortName, ifIndex)`. -/
def p2pIfName (prjID shortName : String) (ifIndex : Nat) : String :=
  prjID ++ shortName ++ "." ++ toString ifIndex

/-- Root-side interface name of a host-bridge leg, from `setupBridge`:
`fmt.Sprintf("%s%s%s.%d", options.NETEM_ID, t.prjID, shortName, ifIndex)`. -/
def bridgeRootIfName (prjID shortName : String) (ifIndex : Nat) : String :=
  NETEM_ID ++ prjID ++ shortName ++ "." ++ toString ifIndex

/-- Peer-side interface name of a host-bridge leg, from `setupBridge`:
`fmt.Sprintf("%s%s%d.%s", options.NETEM_ID, t.prjID, ifIndex, shortName)`. -/
def bridgePeerIfName (prjID : String) (ifIndex : Nat) (shortName : String) : String :=
  NETEM_ID ++ prjID ++ toString ifIndex ++ "." ++ shortName

/-- Bridge device name, from `Load`:
`options.NETEM_ID + t.prjID + "." + shortName`. -/
def bridgeDeviceName (prjID shortName : String) : String :=
  NETEM_ID ++ prjID ++ "." ++ shortName

/-- Written from the wording of spec section 4.4: a point-to-point leg is
named `<projectId><shortName>.<ifIndex>`. -/
def specPointToPointLegName (projectId shortName : String) (ifIndex : Nat) : String :=
  projectId ++ shortName ++ "." ++ toString ifIndex

/-- Written from the wording of spec section 4.4: a host-bridge leg on the
root side is named `<netemId><projectId><shortName>.<ifIndex>` with
`<netemId>` the fixed prefix `ntm`. -/
def specHostBridgeRootLegName (projectId shortName : String) (ifIndex : Nat) : String :=
  "ntm" ++ projectId ++ shortName ++ "." ++ toString ifIndex

/-- Written from the wording of spec section 4.4: a host-bridge leg on the
peer side is named `<netemId><projectId><ifIndex>.<shortName>`. -/
def specHostBridgePeerLegName (projectId : String) (ifIndex : Nat) (shortName : String) : String :=
  "ntm" ++ projectId ++ toString ifIndex ++ "." ++ shortName

/-- Written from the wording of spec section 4.4: a bridge device is named
`<netemId><projectId>.<shortBridgeName>`. -/
def specBridgeDeviceName (projectId shortBridgeName : String) : String :=
  "ntm" ++ projectId ++ "." ++ shortBridgeName

/-- The loop body of `GetNode`: walk the node list and compare
`node.GetName()` with the wanted name.  Calling `GetName` on a nil entry
panics, hence the `Except`. -/
def getNodeAux : List NodeRef → String → Except Err NodeRef
  | [], _ => .ok none
  | none :: _, _ => .error nilNodePanic
  | some n :: rest, name =>
    if n.name = name then .ok (some n) else getNodeAux rest name

/-- `GetNode`. -/
def getNode (t : NetemTopologyManager) (name : String) : Except Err NodeRef :=
  getNodeAux t.nodes name

/-- A straight-line sequence of external calls with early return, as in
the Go functions built from consecutive `if err != nil { return ... }`
blocks: each step is an optional recorded event, its success flag and the
error returned on failure. -/
def execSteps : List (Option Event × Bool × Err) → List Event × Option Err
  | [] => ([], none)
  | (ev, ok, msg) :: rest =>
    if ok then
      let r := execSteps rest
      (ev.toList ++ r.1, r.2)
    else (ev.toList, some msg)

/-- `setupLink`: acquire both peer namespaces, create the veth pair, then
the netem qdiscs when `delay > 0 || loss > 0`, then the tbf qdiscs (burst
`delay+jitter`) when `rate > 0`, then register both interfaces. -/
def setupLink (env : Env) (prjID : String) (l : NetemLink) : List Event × Option Err :=
  match l.peer1.node, l.peer2.node with
  | some n1, some n2 =>
    let if1 := p2pIfName prjID n1.shortName l.peer1.ifIndex
    let if2 := p2pIfName prjID n2.shortName l.peer2.ifIndex
    execSteps
      ([(none, env.getNetnsOk n1.name, "Unable to get netns of " ++ n1.name),
        (none, env.getNetnsOk n2.name, "Unable to get netns of " ++ n2.name),
        (some (.createVeth if1 if2), env.createVethOk if1 if2,
          "Unable to create link " ++ n1.name ++ "-" ++ n2.name)]
       ++ (if l.delay > 0 ∨ l.loss > 0 then
            [(some (.createNetem if1 l.delay l.jitter l.loss), env.createNetemOk if1,
               "Unable to create netem qdisc on " ++ if1),
             (some (.createNetem if2 l.delay l.jitter l.loss), env.createNetemOk if2,
               "Unable to create netem qdisc on " ++ if2)]
          else [])
       ++ (if l.rate > 0 then
            [(some (.createTbf if1 (l.delay + l.jitter) l.rate), env.createTbfOk if1,
               "Unable to create tbf qdisc on " ++ if1),
             (some (.createTbf if2 (l.delay + l.jitter) l.rate), env.createTbfOk if2,
               "Unable to create tbf qdisc on " ++ if2)]
          else [])
       ++ [(some (.addInterface n1.name if1 l.peer1.ifIndex), env.addInterfaceOk if1,
              "Unable to add interface " ++ if1),
           (some (.addInterface n2.name if2 l.peer2.ifIndex), env.addInterfaceOk if2,
              "Unable to add interface " ++ if2)])
  | _, _ => ([], some nilNodePanic)

/-- The per-peer loop of `setupBridge`: serial, returning on the first
error.  The final `AddInterface` return value is discarded in the source,
so it has no failure branch here. -/
def setupBridgePeers (env : Env) (prjID brName : String) :
    List NetemLinkPeer → List Event × Option Err
  | [] => ([], none)
  | peer :: rest =>
    match peer.node with
    | none => ([], some nilNodePanic)
    | some n =>
      let ifName := bridgeRootIfName prjID n.shortName peer.ifIndex
      let peerIfName := bridgePeerIfName prjID peer.ifIndex n.shortName
      let (evs, err) := execSteps
        [(none, env.getNetnsOk n.name, "Unable to get netns of " ++ n.name),
         (some (.createVeth ifName peerIfName), env.createVethOk ifName peerIfName,
           "Unable to create link " ++ brName ++ "-" ++ n.name),
         (some (.setIfUp ifName), env.setIfUpOk ifName,
           "Unable to set " ++ ifName ++ " up"),
         (some (.attachToBridge brName ifName), env.attachToBridgeOk brName ifName,
           "Unable to attach " ++ ifName ++ " to bridge " ++ brName)]
      match err with
      | some e => (evs, some e)
      | none =>
        let (evs2, err2) := setupBridgePeers env prjID brName rest
        (evs ++ [.addInterface n.name peerIfName peer.ifIndex] ++ evs2, err2)

/-- `setupBridge`: create the kernel bridge, attach the host interface,
then wire each peer leg serially. -/
def setupBridge (env : Env) (prjID : String) (br : NetemBridge) : List Event × Option Err :=
  let (evs, err) := execSteps
    [(some (.createBridge br.name), env.createBridgeOk br.name,
       "Unable to create bridge " ++ br.name),
     (some (.attachToBridge br.name br.hostInterface),
       env.attachToBridgeOk br.name br.hostInterface,
       "Unable to attach HostIf to bridge " ++ br.name)]
  match err with
  | some e => (evs, some e)
  | none =>
    let (evs2, err2) := setupBridgePeers env prjID br.name br.peers
    (evs ++ evs2, err2)

/-- Stage 2 of `Run`: start every node through an errgroup.  All tasks
run; the first error is reported after all complete.  A successful start
marks the node as having reached `Started`; a nil entry panics. -/
def startAllNodes (env : Env) : List NodeRef → List NodeRef × List Event × Option Err
  | [] => ([], [], none)
  | nr :: rest =>
    let (ns, evs, err) := startAllNodes env rest
    match nr with
    | none => (none :: ns, evs, some nilNodePanic)
    | some n =>
      if env.nodeStartOk n.name then
        (some {n with started := true} :: ns, .nodeStart n.name :: evs, err)
      else
        (some n :: ns, .nodeStart n.name :: evs,
         some ("Unable to start node " ++ n.name))

/-- Stage 3 of `Run`: build the links serially, stopping at the first
error. -/
def setupLinks (env : Env) (prjID : String) : List NetemLink → List Event × Option Err
  | [] => ([], none)
  | l :: rest =>
    let (evs, err) := setupLink env prjID l
    match err with
    | some e => (evs, some e)
    | none =>
      let (evs2, err2) := setupLinks env prjID rest
      (evs ++ evs2, err2)

/-- Stage 4 of `Run`: build all bridges through an errgroup; every build
runs, the first error is reported afterwards.  A nil bridge entry panics. -/
def setupBridges (env : Env) (prjID : String) :
    List (Option NetemBridge) → List Event × Option Err
  | [] => ([], none)
  | none :: rest =>
    let (evs, _) := setupBridges env prjID rest
    (evs, some nilBridgePanic)
  | some br :: rest =>
    let (evs, err) := setupBridge env prjID br
    let (evs2, err2) := setupBridges env prjID rest
    (evs ++ evs2, err <|> err2)

/-- Stage 5 of `Run`: `LoadConfig` every node through an errgroup,
collecting the per-node messages even for failing nodes. -/
def loadConfigs (env : Env) :
    List NodeRef → List (String × List String) × List Event × Option Err
  | [] => ([], [], none)
  | none :: rest =>
    let (ms, evs, _) := loadConfigs env rest
    (ms, evs, some nilNodePanic)
  | some n :: rest =>
    let (msgs, ok) := env.loadConfigResult n.name
    let (ms, evs, err) := loadConfigs env rest
    ((n.name, msgs) :: ms, .loadConfig n.name :: evs,
     (if ok then none else some ("Unable to load config of node " ++ n.name)) <|> err)

/-- The result of `Run` (and of `Reload`): the new manager state, the
per-node messages, the returned error, and the trace of external calls. -/
structure RunResult where
  state : NetemTopologyManager
  msgs : List (String × List String)
  err : Option Err
  trace : List Event
deriving Repr

/-- `Run`.  An already-running manager returns immediately.  Stage 1
starts the ovs instance; as in the source, its result is assigned to a
variable that is never checked, so the stage cannot fail `Run`.  Stages
2 to 5 each return their first error; `running` is set only after stage 5
succeeds. -/
def run (env : Env) (s : NetemTopologyManager) : RunResult :=
  if s.running then ⟨s, [], none, []⟩
  else
    let _ovsStartResult := env.ovsStartOk
    match startAllNodes env s.nodes with
    | (ns2, ev2, some e) =>
      ⟨{s with nodes := ns2}, [], some e, .ovsStart :: ev2⟩
    | (ns2, ev2, none) =>
      match setupLinks env s.prjID s.links with
      | (ev3, some e) =>
        ⟨{s with nodes := ns2}, [], some e, .ovsStart :: ev2 ++ ev3⟩
      | (ev3, none) =>
        match setupBridges env s.prjID s.bridges with
        | (ev4, some e) =>
          ⟨{s with nodes := ns2}, [], some e, .ovsStart :: ev2 ++ ev3 ++ ev4⟩
        | (ev4, none) =>
          match loadConfigs env ns2 with
          | (msgs, ev5, some e) =>
            ⟨{s with nodes := ns2}, msgs, some e,
             .ovsStart :: ev2 ++ ev3 ++ ev4 ++ ev5⟩
          | (msgs, ev5, none) =>
            ⟨{s with nodes := ns2, running := true}, msgs, none,
             .ovsStart :: ev2 ++ ev3 ++ ev4 ++ ev5⟩

/-- The node-closing errgroup of `Close`.  `node.Close` errors are only
logged, so no oracle is consulted; a nil entry panics. -/
def closeAllNodes : List NodeRef → List Event × Option Err
  | [] => ([], none)
  | none :: rest =>
    let (evs, _) := closeAllNodes rest
    (evs, some nilNodePanic)
  | some n :: rest =>
    let (evs, err) := closeAllNodes rest
    (.nodeClose n.name :: evs, err)

/-- The per-peer deletion loop of `Close` for one bridge: `DeleteLink`
errors are only logged; reading `GetShortName` of a nil peer panics. -/
def closeBridgePeers (prjID : String) : List NetemLinkPeer → List Event × Option Err
  | [] => ([], none)
  | peer :: rest =>
    match peer.node with
    | none => ([], some nilNodePanic)
    | some n =>
      let (evs, err) := closeBridgePeers prjID rest
      (.deleteLink (bridgeRootIfName prjID n.shortName peer.ifIndex) :: evs, err)

/-- The bridge teardown loop of `Close`: delete each bridge device, then
its root-side peer legs; all failures are only logged.  A nil slice entry
panics. -/
def closeBridges (prjID : String) : List (Option NetemBridge) → List Event × Option Err
  | [] => ([], none)
  | none :: _ => ([], some nilBridgePanic)
  | some br :: rest =>
    match closeBridgePeers prjID br.peers with
    | (evs, some e) => (.deleteLink br.name :: evs, some e)
    | (evs, none) =>
      let (evs2, err2) := closeBridges prjID rest
      (.deleteLink br.name :: evs ++ evs2, err2)

/-- `Close`: close all nodes, tear down the bridges, empty the
collections, close the identifier generator (which releases its pool) and
the ovs instance.  Every failure of an external call is logged, never
returned, so the only non-`none` outcome is a panic. -/
def close (env : Env) (s : NetemTopologyManager) :
    NetemTopologyManager × List Event × Option Err :=
  match closeAllNodes s.nodes with
  | (ev1, some e) => (s, ev1, some e)
  | (ev1, none) =>
    match closeBridges s.prjID s.bridges with
    | (ev2, some e) => (s, ev1 ++ ev2, some e)
    | (ev2, none) =>
      ({s with nodes := [], links := [], bridges := [], idGen := [],
               ovsInstance := false},
       ev1 ++ ev2 ++ [.idGenClose, .ovsClose], none)

/-- The aggregated message built by `Check` and `Load` from the validator
errors: each error on its own indented line. -/
def errorsMsg (errs : List String) : String :=
  errs.foldl (fun acc e => acc ++ "\n\t" ++ e) ""

/-- `Check`: validate the topology document; no manager field is read or
written. -/
def check (env : Env) (s : NetemTopologyManager) :
    NetemTopologyManager × Option Err :=
  let errs := env.checkResult.2
  if errs = [] then (s, none)
  else (s, some ("Topology is not valid:" ++ errorsMsg errs ++ "\n"))

/-- Peer parsing in `Load`: `strings.Split(peer, ".")` followed by
`strconv.Atoi` with the error discarded (a failed `Atoi` leaves the zero
value).  Validated documents always contain the `name.index` dot. -/
def parsePeer (s : String) : String × Nat :=
  let parts := s.splitOn "."
  (parts.headD "", (((parts[1]?).getD "").toNat?).getD 0)

/-- The node-creation errgroup of `Load`: for each name, `GetId` then
`CreateNode`, whose returned value is appended to the node list before the
creation error is checked.  All tasks run; the first error is reported
after all complete.  Also returns the short ids issued to the generator
pool. -/
def loadNodes (env : Env) : List String → List NodeRef × List String × Option Err
  | [] => ([], [], none)
  | name :: rest =>
    let (ns, issued, err) := loadNodes env rest
    match env.getId name with
    | none => (ns, issued, some ("Unable to get id of node " ++ name))
    | some short =>
      let (ref, ok) := env.createNode name short
      (ref :: ns, short :: issued,
       if ok then err else some ("Unable to create node " ++ name))

/-- The link-resolution loop of `Load`: parse both peers and look each
node up with `GetNode` (which panics on a nil list entry). -/
def resolveLinks (nodes : List NodeRef) : List LinkConfig → Except Err (List NetemLink)
  | [] => .ok []
  | lc :: rest => do
    let (name1, idx1) := parsePeer lc.peer1
    let (name2, idx2) := parsePeer lc.peer2
    let r1 ← getNodeAux nodes name1
    let r2 ← getNodeAux nodes name2
    let ls ← resolveLinks nodes rest
    .ok ({ peer1 := ⟨r1, idx1⟩, peer2 := ⟨r2, idx2⟩,
           loss := lc.loss, delay := lc.delay, jitter := lc.jitter,
           rate := lc.rate } :: ls)

/-- Peer resolution for one bridge during `Load`. -/
def resolveBridgePeers (nodes : List NodeRef) :
    List String → Except Err (List NetemLinkPeer)
  | [] => .ok []
  | ifName :: rest => do
    let (name, idx) := parsePeer ifName
    let r ← getNodeAux nodes name
    let ps ← resolveBridgePeers nodes rest
    .ok (⟨r, idx⟩ :: ps)

/-- The bridge-resolution loop of `Load`.  The source allocates the whole
bridge slice up front and returns on the first `GetId` error (or panics
while resolving peers), leaving the remaining slots nil; the returned list
reproduces those nil slots.  Also returns the issued short ids. -/
def resolveBridges (env : Env) (prjID : String) (nodes : List NodeRef) :
    List (String × BridgeConfig) →
    List (Option NetemBridge) × List String × Option Err
  | [] => ([], [], none)
  | (bName, bc) :: rest =>
    match env.getId bName with
    | none =>
      (none :: rest.map (fun _ => none), [],
       some ("Unable to get id of bridge " ++ bName))
    | some short =>
      match resolveBridgePeers nodes bc.interfaces with
      | .error p => (none :: rest.map (fun _ => none), [short], some p)
      | .ok peers =>
        let br : NetemBridge :=
          { name := bridgeDeviceName prjID short, hostInterface := bc.host,
            peers := peers }
        let (bs, issued, err) := resolveBridges env prjID nodes rest
        (some br :: bs, short :: issued, err)

/-- `Load`: validate, create the ovs instance, create all nodes
concurrently, then resolve links and bridges.  On error the partially
built state is retained in the manager. -/
def load (env : Env) (s : NetemTopologyManager) :
    NetemTopologyManager × Option Err :=
  let (topo, errs) := env.checkResult
  if errs = [] then
    let s := {s with ovsInstance := env.newOvsOk}
    if env.newOvsOk then
      let (ns, issued, nodeErr) := loadNodes env topo.nodes
      let s := {s with nodes := ns, idGen := s.idGen ++ issued}
      match nodeErr with
      | some e => (s, some e)
      | none =>
        match resolveLinks s.nodes topo.links with
        | .error p => (s, some p)
        | .ok ls =>
          let s := {s with links := ls}
          let (bs, issuedB, bErr) := resolveBridges env s.prjID s.nodes topo.bridges
          ({s with bridges := bs, idGen := s.idGen ++ issuedB}, bErr)
    else (s, some ("Unable to create ovs instance for project " ++ s.prjID))
  else (s, some ("Topology if not valid:" ++ errorsMsg errs ++ "\n"))

/-- `Reload`: `Close`, then `Load`, then — when the manager was running —
reset the flag and `Run` again, returning its messages.  The trace records
the external calls of the `Close` and `Run` parts. -/
def reload (env : Env) (s : NetemTopologyManager) : RunResult :=
  match close env s with
  | (s1, ev1, some e) => ⟨s1, [], some e, ev1⟩
  | (s1, ev1, none) =>
    match load env s1 with
    | (s2, some e) => ⟨s2, [], some e, ev1⟩
    | (s2, none) =>
      if s2.running then
        let r := run env {s2 with running := false}
        ⟨r.state, r.msgs, r.err, ev1 ++ r.trace⟩
      else ⟨s2, [], none, ev1⟩

/-- `startNode`: `node.Start`, then `node.LoadConfig`, with the messages
returned even when config loading fails.  Returns the updated node (its
`Started` mark), the messages, the error and the trace. -/
def startNode (env : Env) (n : Node) :
    Node × List String × Option Err × List Event :=
  if env.nodeStartOk n.name then
    let n := {n with started := true}
    let (msgs, ok) := env.loadConfigResult n.name
    if ok then (n, msgs, none, [.nodeStart n.name, .loadConfig n.name])
    else
      (n, msgs, some ("Unable to load config of node " ++ n.name),
       [.nodeStart n.name, .loadConfig n.name])
  else
    (n, [], some ("Unable to start node " ++ n.name), [.nodeStart n.name])

/-- Replace the entry of the named node after a per-node `Start` updated
its status. -/
def updateNode (nodes : List NodeRef) (n : Node) : List NodeRef :=
  nodes.map (fun nr => match nr with
    | some m => if m.name = n.name then some n else some m
    | none => none)

/-- `Start(name)`: a warning-only no-op when the manager is not running;
otherwise look the node up and run `startNode`. -/
def start (env : Env) (s : NetemTopologyManager) (name : String) :
    NetemTopologyManager × List String × Option Err × List Event :=
  if s.running then
    match getNode s name with
    | .error p => (s, [], some p, [])
    | .ok none =>
      (s, [], some ("Node " ++ name ++ " not found in the topology"), [])
    | .ok (some n) =>
      let (n', msgs, err, evs) := startNode env n
      ({s with nodes := updateNode s.nodes n'}, msgs, err, evs)
  else (s, [], none, [])

/-- `Stop(name)`: a warning-only no-op when the manager is not running;
otherwise look the node up and run `stopNode`, which wraps a failing
`node.Stop` with the node name. -/
def stop (env : Env) (s : NetemTopologyManager) (name : String) :
    Option Err × List Event :=
  if s.running then
    match getNode s name with
    | .error p => (some p, [])
    | .ok none => (some ("Node " ++ name ++ " not found in the topology"), [])
    | .ok (some n) =>
      if env.nodeStopOk n.name then (none, [.nodeStop n.name])
      else (some ("Unable to stop node " ++ n.name), [.nodeStop n.name])
  else (none, [])

/-- An environment in which every external call succeeds and the topology
document holds the single node `r1`. -/
def envAllOk : Env where
  checkResult := ({nodes := ["r1"], links := [], bridges := []}, [])
  newOvsOk := true
  getId := fun _ => some "r1s"
  createNode := fun n short => (some {name := n, shortName := short, started := false}, true)
  ovsStartOk := true
  nodeStartOk := fun _ => true
  nodeStopOk := fun _ => true
  getNetnsOk := fun _ => true
  createVethOk := fun _ _ => true
  createNetemOk := fun _ => true
  createTbfOk := fun _ => true
  addInterfaceOk := fun _ => true
  createBridgeOk := fun _ => true
  attachToBridgeOk := fun _ _ => true
  setIfUpOk := fun _ => true
  loadConfigResult := fun _ => ([], true)

/-- A freshly constructed manager for project `p1`, before its initial
`Load`. -/
def mgr0 : NetemTopologyManager where
  prjID := "p1"
  idGen := []
  nodes := []
  ovsInstance := false
  links := []
  bridges := []
  running := false

/-- `envAllOk` with a `CreateNode` that fails and returns a nil node, as a
container runtime may. -/
def envC10 : Env := {envAllOk with createNode := fun _ _ => (none, false)}

/-- The manager after its initial successful `Load`. -/
def mgrLoaded : NetemTopologyManager := (load envAllOk mgr0).1

/-- The manager after `Load` and a fully successful `Run`. -/
def mgrRunning : NetemTopologyManager := (run envAllOk mgrLoaded).state

/-- Every node entry is non-nil and has reached `Started`. -/
def allStartedB (ns : List NodeRef) : Bool :=
  ns.all (fun nr => match nr with
    | some n => n.started
    | none => false)

/-- A well-formed bridge slot: non-nil, with non-nil peer nodes. -/
def bridgeWf : Option NetemBridge → Bool
  | none => false
  | some br => br.peers.all (fun p => p.node.isSome)

/-- Events that install a queuing discipline. -/
def isQdiscEvent : Event → Bool
  | .createNetem _ _ _ _ => true
  | .createTbf _ _ _ => true
  | _ => false

/-- Events that only tear resources down or stop a node — everything
`Close` may emit, and nothing `Run` emits. -/
def isTeardownEvent : Event → Bool
  | .nodeClose _ => true
  | .nodeStop _ => true
  | .deleteLink _ => true
  | .idGenClose => true
  | .ovsClose => true
  | _ => false

/-- `e1` occurs strictly before `e2` in the trace: the trace splits at a
point with `e1` on the left and `e2` on the right. -/
def occursBefore (e1 e2 : Event) (evs : List Event) : Prop :=
  ∃ k, e1 ∈ evs.take k ∧ e2 ∈ evs.drop k

/-- A sample node used in concrete scenes. -/
def nodeR1 : Node := ⟨"r1", "r1s", true⟩

/-- A second sample node used in concrete scenes. -/
def nodeR2 : Node := ⟨"r2", "r2s", true⟩

/-- The impaired link of spec scene S2: delay 50 ms, jitter 5 ms, rate
1000 kbps. -/
def linkS2 : NetemLink where
  peer1 := ⟨some nodeR1, 0⟩
  peer2 := ⟨some nodeR2, 0⟩
  loss := 0
  delay := 50
  jitter := 5
  rate := 1000

/-! ### Helper lemmas -/

theorem execSteps_ok_events :
    ∀ steps : List (Option Event × Bool × Err),
      (execSteps steps).2 = none →
      (execSteps steps).1 = steps.filterMap Prod.fst
  | [], _ => rfl
  | (ev, ok, msg) :: rest, h => by
    by_cases hok : ok = true
    · simp only [execSteps, hok, if_true] at h ⊢
      rw [List.filterMap_cons, execSteps_ok_events rest h]
      cases ev <;> simp
    · simp [execSteps, hok] at h

theorem startAllNodes_ok_started (env : Env) :
    ∀ ns : List NodeRef,
      (startAllNodes env ns).2.2 = none →
      allStartedB (startAllNodes env ns).1 = true
  | [], _ => rfl
  | nr :: rest, h => by
    rcases hrec : startAllNodes env rest with ⟨ns', evs', err'⟩
    cases nr with
    | none => simp [startAllNodes, hrec] at h
    | some n =>
      by_cases hok : env.nodeStartOk n.name = true
      · simp only [startAllNodes, hrec, hok, if_true] at h ⊢
        have := startAllNodes_ok_started env rest
        rw [hrec] at this
        simpa [allStartedB] using this h
      · simp [startAllNodes, hrec, hok] at h

theorem close_preserves_running (env : Env) (s : NetemTopologyManager) :
    (close env s).1.running = s.running := by
  unfold close
  rcases h1 : closeAllNodes s.nodes with ⟨ev1, e1⟩
  cases e1 with
  | some e => simp
  | none =>
    rcases h2 : closeBridges s.prjID s.bridges with ⟨ev2, e2⟩
    cases e2 <;> simp [h2]

theorem load_preserves_running (env : Env) (s : NetemTopologyManager) :
    (load env s).1.running = s.running := by
  unfold load
  rcases hc : env.checkResult with ⟨topo, errs⟩
  by_cases herrs : errs = []
  · by_cases hovs : env.newOvsOk = true
    · rcases hn : loadNodes env topo.nodes with ⟨ns, issued, nerr⟩
      cases nerr with
      | some e => simp [herrs, hovs, hn]
      | none =>
        cases hres : resolveLinks ns topo.links with
        | error p => simp [herrs, hovs, hn, hres]
        | ok ls =>
          rcases hb : resolveBridges env s.prjID ns topo.bridges with ⟨bs, issuedB, bErr⟩
          simp [herrs, hovs, hn, hres, hb]
    · simp [herrs, hovs]
  · simp [herrs]

theorem closeAllNodes_ok (ns : List NodeRef)
    (h : ns.all Option.isSome = true) : (closeAllNodes ns).2 = none := by
  induction ns with
  | nil => rfl
  | cons nr rest ih =>
    cases nr with
    | none => simp at h
    | some n =>
      simp only [List.all_cons, Bool.and_eq_true] at h
      rcases hp : closeAllNodes rest with ⟨evs, err⟩
      have := ih h.2
      rw [hp] at this
      simp [closeAllNodes, hp, this]

theorem closeBridgePeers_ok (prjID : String) (ps : List NetemLinkPeer)
    (h : ps.all (fun p => p.node.isSome) = true) :
    (closeBridgePeers prjID ps).2 = none := by
  induction ps with
  | nil => rfl
  | cons p rest ih =>
    simp only [List.all_cons, Bool.and_eq_true] at h
    rcases hn : p.node with _ | n
    · rw [hn] at h; simp at h
    · rcases hp : closeBridgePeers prjID rest with ⟨evs, err⟩
      have := ih h.2
      rw [hp] at this
      simp [closeBridgePeers, hn, hp, this]

theorem closeBridges_ok (prjID : String) (bs : List (Option NetemBridge))
    (h : bs.all bridgeWf = true) : (closeBridges prjID bs).2 = none := by
  induction bs with
  | nil => rfl
  | cons ob rest ih =>
    simp only [List.all_cons, Bool.and_eq_true] at h
    cases ob with
    | none => simp [bridgeWf] at h
    | some br =>
      have hpeers := closeBridgePeers_ok prjID br.peers (by simpa [bridgeWf] using h.1)
      rcases hp : closeBridgePeers prjID br.peers with ⟨evs, err⟩
      rw [hp] at hpeers
      subst hpeers
      rcases hr : closeBridges prjID rest with ⟨evs2, err2⟩
      have := ih h.2
      rw [hr] at this
      simp [closeBridges, hp, hr, this]

theorem closeAllNodes_teardown (ns : List NodeRef) :
    ∀ e ∈ (closeAllNodes ns).1, isTeardownEvent e = true := by
  induction ns with
  | nil => simp [closeAllNodes]
  | cons nr rest ih =>
    rcases hp : closeAllNodes rest with ⟨evs, err⟩
    rw [hp] at ih
    cases nr <;> simp only [closeAllNodes, hp] <;> intro e he
    · exact ih e he
    · rcases List.mem_cons.1 he with rfl | hmem
      · rfl
      · exact ih e hmem

theorem closeBridgePeers_teardown (prjID : String) (ps : List NetemLinkPeer) :
    ∀ e ∈ (closeBridgePeers prjID ps).1, isTeardownEvent e = true := by
  induction ps with
  | nil => simp [closeBridgePeers]
  | cons p rest ih =>
    rcases hp : closeBridgePeers prjID rest with ⟨evs, err⟩
    rw [hp] at ih
    cases hn : p.node <;> simp only [closeBridgePeers, hn, hp] <;> intro e he
    · simp at he
    · rcases List.mem_cons.1 he with rfl | hmem
      · rfl
      · exact ih e hmem

theorem closeBridges_teardown (prjID : String) (bs : List (Option NetemBridge)) :
    ∀ e ∈ (closeBridges prjID bs).1, isTeardownEvent e = true := by
  induction bs with
  | nil => simp [closeBridges]
  | cons ob rest ih =>
    cases ob with
    | none => simp [closeBridges]
    | some br =>
      have hpe := closeBridgePeers_teardown prjID br.peers
      rcases hp : closeBridgePeers prjID br.peers with ⟨evs, err⟩
      rw [hp] at hpe
      cases err with
      | some e0 =>
        simp only [closeBridges, hp]
        intro e he
        rcases List.mem_cons.1 he with rfl | hmem
        · rfl
        · exact hpe e hmem
      | none =>
        rcases hr : closeBridges prjID rest with ⟨evs2, err2⟩
        rw [hr] at ih
        simp only [closeBridges, hp, hr]
        intro e he
        rcases List.mem_cons.1 he with rfl | hmem
        · rfl
        · rcases List.mem_append.1 hmem with h1 | h2
          · exact hpe e h1
          · exact ih e h2

theorem close_teardown (env : Env) (s : NetemTopologyManager) :
    ∀ e ∈ (close env s).2.1, isTeardownEvent e = true := by
  have hn := closeAllNodes_teardown s.nodes
  have hb := closeBridges_teardown s.prjID s.bridges
  rcases h1 : closeAllNodes s.nodes with ⟨ev1, e1⟩
  rw [h1] at hn
  cases e1 with
  | some e =>
    simp only [close, h1]
    exact hn
  | none =>
    rcases h2 : closeBridges s.prjID s.bridges with ⟨ev2, e2⟩
    rw [h2] at hb
    cases e2 with
    | some e0 =>
      simp only [close, h1, h2]
      intro e he
      rcases List.mem_append.1 he with hm | hm
      · exact hn e hm
      · exact hb e hm
    | none =>
      simp only [close, h1, h2]
      intro e he
      rcases List.mem_append.1 he with hm | hm
      · rcases List.mem_append.1 hm with hm1 | hm1
        · exact hn e hm1
        · exact hb e hm1
      · rcases List.mem_cons.1 hm with rfl | hm3
        · rfl
        · rcases List.mem_cons.1 hm3 with rfl | hm4
          · rfl
          · simp at hm4

theorem getNodeAux_not_found (name : String) (ns : List NodeRef)
    (h : ∀ nr ∈ ns, ∃ n, nr = some n ∧ n.name ≠ name) :
    getNodeAux ns name = .ok none := by
  induction ns with
  | nil => rfl
  | cons nr rest ih =>
    rcases h nr (List.mem_cons_self nr rest) with ⟨n, rfl, hne⟩
    simp only [getNodeAux, hne, if_neg]
    exact ih fun nr hm => h nr (List.mem_cons_of_mem _ hm)

/-! ### Claim theorems -/

/-- Claim C6: generated kernel-interface names follow the naming policy of
spec section 4.4 exactly — point-to-point leg `<projectId><shortName>.<ifIndex>`,
host-bridge root-side leg `ntm<projectId><shortName>.<ifIndex>`, host-bridge
peer-side leg `ntm<projectId><ifIndex>.<shortName>`, bridge device
`ntm<projectId>.<shortBridgeName>`, with `ntm` the fixed netem prefix. -/
theorem interface_naming_policy :
    (∀ prjID short idx, p2pIfName prjID short idx = specPointToPointLegName prjID short idx)
    ∧ (∀ prjID short idx, bridgeRootIfName prjID short idx = specHostBridgeRootLegName prjID short idx)
    ∧ (∀ prjID idx short, bridgePeerIfName prjID idx short = specHostBridgePeerLegName prjID idx short)
    ∧ (∀ prjID short, bridgeDeviceName prjID short = specBridgeDeviceName prjID short)
    ∧ NETEM_ID = "ntm" :=
  ⟨fun _ _ _ => rfl, fun _ _ _ => rfl, fun _ _ _ => rfl, fun _ _ => rfl, rfl⟩

/-- Claim C7: `Run` on an already-running manager is a no-op — it returns
empty per-node messages and no error, performs no external call, and
leaves the state unchanged. -/
theorem run_noop_when_running (env : Env) (s : NetemTopologyManager)
    (h : s.running = true) : run env s = ⟨s, [], none, []⟩ := by
  simp [run, h]

/-- Claim C7 witness: `Run` on a concrete running manager. -/
theorem run_noop_when_running_witness :
    run envAllOk {mgr0 with running := true} =
      ⟨{mgr0 with running := true}, [], none, []⟩ :=
  run_noop_when_running envAllOk {mgr0 with running := true} rfl

/-- Claim C9: `Check` validates the topology document and returns success
or an aggregated validation error, leaving every manager field unchanged. -/
theorem check_pure (env : Env) (s : NetemTopologyManager) :
    (check env s).1 = s ∧ ((check env s).2 = none ↔ env.checkResult.2 = []) := by
  unfold check
  by_cases h : env.checkResult.2 = [] <;> simp [h]

/-- Claim C2 exhibit (the code bug): with the OVS start failing and every
other call succeeding, `Run` on a freshly loaded manager returns no error,
proceeds to start the nodes and sets `running` — instead of propagating
the OVS error and stopping, as the spec requires. -/
theorem run_ignores_ovs_start_error_exhibit :
    (run {envAllOk with ovsStartOk := false} mgrLoaded).err = none
    ∧ (run {envAllOk with ovsStartOk := false} mgrLoaded).state.running = true
    ∧ Event.nodeStart "r1" ∈ (run {envAllOk with ovsStartOk := false} mgrLoaded).trace := by
  decide

/-- Claim C1 counterexample: the claim says that after `Close` the manager
reports `IsRunning() = false`, but `Close` never touches the flag — after
`Load`, a successful `Run` and a `Close`, `IsRunning()` is still true. -/
theorem close_keeps_running_counterexample :
    isRunning (close envAllOk mgrRunning).1 = true := by
  decide

/-- Claim C3 counterexample: `Close` is claimed to succeed from any
manager state, but on a manager whose node list holds the nil reference a
failed `Load` left behind (see C10), `Close` calls `node.Close()` on a nil
interface value and panics instead of returning success. -/
theorem close_panics_on_nil_node_counterexample :
    ¬(close envAllOk (load envC10 mgr0).1).2.2 = none := by
  decide

/-- Claim C1 (amended): `Run` invoked on a non-running manager returns no
error exactly when it sets `running := true`, which happens iff stages 2-5
(node starts, links, bridges, config loads) all succeed — the stage-1 OVS
start error is discarded (see C2) — and in that case every node has
reached `Started`.  `Close` does not modify the `running` flag at all, so
`IsRunning()` is not reset by `Close`. -/
theorem running_flag_characterization :
    (∀ (env : Env) (s : NetemTopologyManager), s.running = false →
       ((run env s).err = none ↔ (run env s).state.running = true)
       ∧ ((run env s).err = none → allStartedB (run env s).state.nodes = true))
    ∧ (∀ (env : Env) (s : NetemTopologyManager),
        (close env s).1.running = s.running) := by
  refine ⟨fun env s h => ?_, fun env s => close_preserves_running env s⟩
  have hstart := startAllNodes_ok_started env s.nodes
  rcases h2 : startAllNodes env s.nodes with ⟨ns2, ev2, e2⟩
  rw [h2] at hstart
  cases e2 with
  | some e => simp [run, h, h2]
  | none =>
    rcases h3 : setupLinks env s.prjID s.links with ⟨ev3, e3⟩
    cases e3 with
    | some e => simp [run, h, h2, h3]
    | none =>
      rcases h4 : setupBridges env s.prjID s.bridges with ⟨ev4, e4⟩
      cases e4 with
      | some e => simp [run, h, h2, h3, h4]
      | none =>
        rcases h5 : loadConfigs env ns2 with ⟨msgs, ev5, e5⟩
        cases e5 with
        | some e => simp [run, h, h2, h3, h4, h5]
        | none =>
          refine ⟨by simp [run, h, h2, h3, h4, h5], fun _ => ?_⟩
          simp only [run, h, h2, h3, h4, h5]
          simpa using hstart rfl

/-- Claim C1 witness: the characterization applied to the freshly loaded
manager in the all-successful environment, and `Close` on the fresh
manager. -/
theorem running_flag_characterization_witness :
    (((run envAllOk mgrLoaded).err = none) ↔
        (run envAllOk mgrLoaded).state.running = true)
    ∧ allStartedB (run envAllOk mgrLoaded).state.nodes = true
    ∧ (close envAllOk mgr0).1.running = mgr0.running :=
  ⟨(running_flag_characterization.1 envAllOk mgrLoaded (by decide)).1,
   (running_flag_characterization.1 envAllOk mgrLoaded (by decide)).2 (by decide),
   running_flag_characterization.2 envAllOk mgr0⟩

/-- Claim C3 (amended): provided no nil node reference and no nil bridge
slot is present (a failed `Load` can leave both behind, see C10), `Close`
always returns success, empties the node, link and bridge collections,
releases the generator pool and the ovs instance, and a second `Close` is
a no-op: it returns the same emptied state and performs no node close and
no link deletion. -/
theorem close_cleanup (env : Env) (s : NetemTopologyManager)
    (h1 : s.nodes.all Option.isSome = true)
    (h2 : s.bridges.all bridgeWf = true) :
    (close env s).2.2 = none
    ∧ (close env s).1 =
        {s with nodes := [], links := [], bridges := [], idGen := [],
                ovsInstance := false}
    ∧ close env (close env s).1 =
        ((close env s).1, [Event.idGenClose, Event.ovsClose], none) := by
  have hn := closeAllNodes_ok s.nodes h1
  have hb := closeBridges_ok s.prjID s.bridges h2
  rcases hA : closeAllNodes s.nodes with ⟨evA, errA⟩
  rw [hA] at hn
  subst hn
  rcases hB : closeBridges s.prjID s.bridges with ⟨evB, errB⟩
  rw [hB] at hb
  subst hb
  have hstate : (close env s).1 =
      {s with nodes := [], links := [], bridges := [], idGen := [],
              ovsInstance := false} := by
    simp [close, hA, hB]
  refine ⟨by simp [close, hA, hB], hstate, ?_⟩
  rw [hstate]
  rfl

/-- Claim C3 witness: cleanup of the concrete running manager. -/
theorem close_cleanup_witness :
    (close envAllOk mgrRunning).2.2 = none
    ∧ (close envAllOk mgrRunning).1 =
        {mgrRunning with nodes := [], links := [], bridges := [], idGen := [],
                         ovsInstance := false}
    ∧ close envAllOk (close envAllOk mgrRunning).1 =
        ((close envAllOk mgrRunning).1, [Event.idGenClose, Event.ovsClose], none) :=
  close_cleanup envAllOk mgrRunning (by decide) (by decide)

/-- Claim C8: `Start(name)` and `Stop(name)` on a non-running manager are
warning-only no-ops returning empty messages respectively no error, with
no node operation performed; on a running manager whose node list holds no
node of that name, both return the `not found` error. -/
theorem start_stop_guards (env : Env) (s : NetemTopologyManager) (name : String) :
    (s.running = false →
       start env s name = (s, [], none, [])
       ∧ stop env s name = (none, []))
    ∧ (s.running = true →
       (∀ nr ∈ s.nodes, ∃ n, nr = some n ∧ n.name ≠ name) →
       start env s name =
         (s, [], some ("Node " ++ name ++ " not found in the topology"), [])
       ∧ stop env s name =
         (some ("Node " ++ name ++ " not found in the topology"), [])) := by
  constructor
  · intro h
    constructor <;> simp [start, stop, h]
  · intro h hw
    have hkey := getNodeAux_not_found name s.nodes hw
    constructor <;> simp [start, stop, getNode, h, hkey]

/-- Claim C8 witness: both guard branches on concrete managers. -/
theorem start_stop_guards_witness :
    (start envAllOk mgr0 "r9" = (mgr0, [], none, [])
     ∧ stop envAllOk mgr0 "r9" = (none, []))
    ∧ (start envAllOk {mgr0 with running := true} "r9" =
         ({mgr0 with running := true}, [],
          some ("Node " ++ "r9" ++ " not found in the topology"), [])
       ∧ stop envAllOk {mgr0 with running := true} "r9" =
         (some ("Node " ++ "r9" ++ " not found in the topology"), [])) :=
  ⟨(start_stop_guards envAllOk mgr0 "r9").1 rfl,
   (start_stop_guards envAllOk {mgr0 with running := true} "r9").2 rfl
     (by intro nr hm; simp [mgr0] at hm)⟩

/-- Claim C10: a node-creation task of `Load` appends the value returned
by `CreateNode` before checking the creation error, so when creation fails
with a nil node the list retains the nil entry after `Load` returns its
error; `GetAllNodes` exposes the nil entry, and any `GetNode` walks into
it and panics calling `GetName`. -/
theorem load_retains_nil_node (env : Env) (s : NetemTopologyManager)
    (nm short : String)
    (hdoc : env.checkResult = ({nodes := [nm], links := [], bridges := []}, []))
    (hovs : env.newOvsOk = true)
    (hid : env.getId nm = some short)
    (hcreate : env.createNode nm short = (none, false)) :
    (load env s).1.nodes = [none]
    ∧ ((load env s).2).isSome = true
    ∧ getAllNodes (load env s).1 = [none]
    ∧ ∀ m : String, getNode (load env s).1 m = .error nilNodePanic := by
  have hnodes : loadNodes env [nm] = ([none], [short], some ("Unable to create node " ++ nm)) := by
    simp [loadNodes, hid, hcreate]
  refine ⟨?_, ?_, ?_, ?_⟩ <;>
    simp [load, getAllNodes, getNode, getNodeAux, hdoc, hovs, hnodes]

/-- Claim C10 witness: the nil entry retained by the concrete failing
load, exposed by `GetAllNodes` and panicking `GetNode`. -/
theorem load_retains_nil_node_witness :
    (load envC10 mgr0).1.nodes = [none]
    ∧ ((load envC10 mgr0).2).isSome = true
    ∧ getAllNodes (load envC10 mgr0).1 = [none]
    ∧ getNode (load envC10 mgr0).1 "r1" = .error nilNodePanic := by
  have h := load_retains_nil_node envC10 mgr0 "r1" "r1s" rfl rfl rfl rfl
  exact ⟨h.1, h.2.1, h.2.2.1, h.2.2.2 "r1"⟩

/-- Claim C4: `Reload` is `Close` then `Load`; a `Close` panic or a `Load`
error is surfaced with empty messages; when the manager was running before
(`Close` and `Load` never change the flag), it runs `Run` and returns its
state, messages and error; when it was not running, it returns empty
messages and no error without invoking `Run` — its trace holds teardown
events only. -/
theorem reload_spec (env : Env) (s : NetemTopologyManager) :
    (∀ e, (close env s).2.2 = some e →
       (reload env s).err = some e ∧ (reload env s).msgs = [])
    ∧ ((close env s).2.2 = none →
        (∀ e, (load env (close env s).1).2 = some e →
           (reload env s).err = some e ∧ (reload env s).msgs = [])
        ∧ ((load env (close env s).1).2 = none → s.running = true →
             (reload env s).state =
               (run env {(load env (close env s).1).1 with running := false}).state
             ∧ (reload env s).msgs =
               (run env {(load env (close env s).1).1 with running := false}).msgs
             ∧ (reload env s).err =
               (run env {(load env (close env s).1).1 with running := false}).err)
        ∧ ((load env (close env s).1).2 = none → s.running = false →
             (reload env s).msgs = [] ∧ (reload env s).err = none
             ∧ ∀ e ∈ (reload env s).trace, isTeardownEvent e = true)) := by
  have htrace := close_teardown env s
  have hcrun := close_preserves_running env s
  rcases hc : close env s with ⟨s1, ev1, p⟩
  rw [hc] at htrace hcrun
  cases p with
  | some e0 =>
    refine ⟨fun e he => ?_, fun hnone => by simp at hnone⟩
    obtain rfl : e0 = e := Option.some.inj he
    simp [reload, hc]
  | none =>
    refine ⟨fun e he => by simp at he, fun _ => ?_⟩
    have hlrun := load_preserves_running env s1
    rcases hl : load env s1 with ⟨s2, le⟩
    rw [hl] at hlrun
    cases le with
    | some e0 =>
      refine ⟨fun e he => ?_, fun hnone => by simp at hnone, fun hnone => by simp at hnone⟩
      obtain rfl : e0 = e := Option.some.inj he
      simp [reload, hc, hl]
    | none =>
      refine ⟨fun e he => by simp at he, fun _ hrun => ?_, fun _ hnotrun => ?_⟩
      · have h2run : s2.running = true := by
          simp only at hlrun
          rw [hlrun, hcrun, hrun]
        simp [reload, hc, hl, h2run]
      · have h2run : s2.running = false := by
          simp only at hlrun
          rw [hlrun, hcrun, hnotrun]
        refine ⟨by simp [reload, hc, hl, h2run], by simp [reload, hc, hl, h2run], ?_⟩
        simp only [reload, hc, hl, h2run]
        simpa using htrace

/-- Claim C4 witness: `Reload` of the fresh non-running manager returns
empty messages, no error, and only teardown events (none of `Run`). -/
theorem reload_spec_witness :
    (reload envAllOk mgr0).msgs = [] ∧ (reload envAllOk mgr0).err = none
    ∧ isTeardownEvent Event.idGenClose = true := by
  have h := (((reload_spec envAllOk mgr0).2 (by decide)).2.2 (by decide) (by decide))
  exact ⟨h.1, h.2.1, h.2.2 Event.idGenClose (by decide)⟩

/-- Claim C5: for a link that `setupLink` builds successfully, the veth
pair is created, a netem qdisc carrying the link delay, jitter and loss is
installed on both ends iff `delay > 0` or `loss > 0`, a token-bucket qdisc
carrying the link rate with burst `delay + jitter` is installed on both
ends iff `rate > 0`, and the veth creation precedes every qdisc
installation in the trace. -/
theorem setupLink_qdisc_policy (env : Env) (prjID : String) (l : NetemLink)
    (n1 n2 : Node) (h1 : l.peer1.node = some n1) (h2 : l.peer2.node = some n2)
    (hok : (setupLink env prjID l).2 = none) :
    Event.createVeth (p2pIfName prjID n1.shortName l.peer1.ifIndex)
        (p2pIfName prjID n2.shortName l.peer2.ifIndex) ∈ (setupLink env prjID l).1
    ∧ ((Event.createNetem (p2pIfName prjID n1.shortName l.peer1.ifIndex)
          l.delay l.jitter l.loss ∈ (setupLink env prjID l).1
        ∧ Event.createNetem (p2pIfName prjID n2.shortName l.peer2.ifIndex)
          l.delay l.jitter l.loss ∈ (setupLink env prjID l).1)
       ↔ (l.delay > 0 ∨ l.loss > 0))
    ∧ ((Event.createTbf (p2pIfName prjID n1.shortName l.peer1.ifIndex)
          (l.delay + l.jitter) l.rate ∈ (setupLink env prjID l).1
        ∧ Event.createTbf (p2pIfName prjID n2.shortName l.peer2.ifIndex)
          (l.delay + l.jitter) l.rate ∈ (setupLink env prjID l).1)
       ↔ l.rate > 0)
    ∧ (∀ e ∈ (setupLink env prjID l).1, isQdiscEvent e = true →
         occursBefore
           (Event.createVeth (p2pIfName prjID n1.shortName l.peer1.ifIndex)
             (p2pIfName prjID n2.shortName l.peer2.ifIndex))
           e (setupLink env prjID l).1) := by
  simp only [setupLink, h1, h2] at hok ⊢
  rw [execSteps_ok_events _ hok]
  by_cases hd : l.delay > 0 ∨ l.loss > 0 <;> by_cases hr : l.rate > 0 <;>
    simp only [hd, hr, if_true, if_false, ite_true, ite_false,
      iff_true, iff_false, not_or, not_lt,
      List.filterMap_append, List.filterMap_cons, List.filterMap_nil,
      List.append_assoc, List.cons_append, List.nil_append] <;>
    refine ⟨by simp, by simp [hd], by simp [hr], ?_⟩ <;>
    intro e he hq <;>
    (rcases List.mem_cons.1 he with rfl | hmem
     · simp [isQdiscEvent] at hq
     · exact ⟨1, by simp, by simpa using hmem⟩)

/-- Claim C5 witness: the impaired link of scene S2 (delay 50, jitter 5,
rate 1000) built in the all-successful environment. -/
theorem setupLink_qdisc_policy_witness :
    Event.createVeth (p2pIfName "p1" "r1s" 0) (p2pIfName "p1" "r2s" 0)
        ∈ (setupLink envAllOk "p1" linkS2).1
    ∧ ((Event.createNetem (p2pIfName "p1" "r1s" 0) linkS2.delay linkS2.jitter linkS2.loss
          ∈ (setupLink envAllOk "p1" linkS2).1
        ∧ Event.createNetem (p2pIfName "p1" "r2s" 0) linkS2.delay linkS2.jitter linkS2.loss
          ∈ (setupLink envAllOk "p1" linkS2).1)
       ↔ (linkS2.delay > 0 ∨ linkS2.loss > 0))
    ∧ ((Event.createTbf (p2pIfName "p1" "r1s" 0) (linkS2.delay + linkS2.jitter) linkS2.rate
          ∈ (setupLink envAllOk "p1" linkS2).1
        ∧ Event.createTbf (p2pIfName "p1" "r2s" 0) (linkS2.delay + linkS2.jitter) linkS2.rate
          ∈ (setupLink envAllOk "p1" linkS2).1)
       ↔ linkS2.rate > 0)
    ∧ occursBefore
        (Event.createVeth (p2pIfName "p1" "r1s" 0) (p2pIfName "p1" "r2s" 0))
        (Event.createNetem (p2pIfName "p1" "r1s" 0) linkS2.delay linkS2.jitter linkS2.loss)
        (setupLink envAllOk "p1" linkS2).1 := by
  have h := setupLink_qdisc_policy envAllOk "p1" linkS2 nodeR1 nodeR2 rfl rfl (by decide)
  exact ⟨h.1, h.2.1, h.2.2.1, h.2.2.2 _ (by decide) rfl⟩

end Gonetem
